import Mathlib

/-!
Shallow embedding of the two core components of the CrmCALLPRO repository:

* the script interpreter / conditional renderer of
  `src/components/AgentPreview.tsx` (display conditions, answer recording,
  page navigation, rendering of the current page), and
* the agent call-session state machine of the `AgentView` component
  (`src/unnamed/part_001`): CTI statuses, the per-second status timer, the
  contact selection of `handleNextCall`, the wrap-up timeout of
  `handleEndCall`, and the mount/teardown behaviour of the React component.

JavaScript values stored in the `formValues` record are modelled by the sum
type `JSValue` (strings from single-valued inputs, string arrays from
checkbox groups); records are modelled as association lists with the
insert-or-overwrite semantics of the object spread `{...prev, [name]: v}`.
-/

namespace CrmCallPro

/-- A JavaScript value stored in the `formValues` answer record: either a
string (single-valued inputs) or an array of strings (checkbox groups). -/
inductive JSValue where
  | str (s : String)
  | arr (xs : List String)
deriving DecidableEq, Repr

/-- The `formValues` record of `AgentPreview`, as an association list from
block name to stored value (JS object keys are unique; `setValue` keeps it
so). -/
abbrev FormValues := List (String × JSValue)

/-- `values[name]` on a JS object: the stored value, or `none` when the key
is absent. -/
def lookupValue (values : FormValues) (name : String) : Option JSValue :=
  (values.find? (fun p => p.1 == name)).map (fun p => p.2)

/-- The object spread `{ ...prev, [name]: v }`: overwrite the value of an
existing key in place, or append a new key at the end. -/
def setValue (values : FormValues) (name : String) (v : JSValue) : FormValues :=
  if values.any (fun p => p.1 == name) then
    values.map (fun p => if p.1 == name then (name, v) else p)
  else
    values ++ [(name, v)]

/-- `DisplayCondition` from `types.ts`: `{ blockName: string | null, value }`.
A `null`/`undefined` block name is `none`. Condition values compared by the
interpreter are strings. -/
structure DisplayCondition where
  blockName : Option String
  value : String
deriving DecidableEq, Repr

/-- `checkCondition` from `src/components/AgentPreview.tsx` lines 12-19:

```
if (!condition || !condition.blockName) return true;
const targetValue = values[condition.blockName];
if (Array.isArray(targetValue)) return targetValue.includes(condition.value);
return targetValue === condition.value;
```

Note that `!condition.blockName` is a JS truthiness test, so the empty
string `""` is treated like `null`/`undefined` (vacuously true); and
`undefined === condition.value` is false for a string condition value. -/
def checkCondition (condition : Option DisplayCondition) (values : FormValues) : Bool :=
  match condition with
  | none => true
  | some cond =>
    match cond.blockName with
    | none => true
    | some name =>
      if name = "" then true
      else
        match lookupValue values name with
        | some (.arr xs) => xs.contains cond.value
        | some (.str s) => s == cond.value
        | none => false

/-- The claim's reading of `checkCondition`: vacuous only when the condition
is null or its `blockName` is null/absent; any other `blockName` (including
the empty string) is looked up in the answer record. Kept separate from
`checkCondition` so the two can be compared. -/
def checkConditionClaimed (condition : Option DisplayCondition) (values : FormValues) : Bool :=
  match condition with
  | none => true
  | some cond =>
    match cond.blockName with
    | none => true
    | some name =>
      match lookupValue values name with
      | some (.arr xs) => xs.contains cond.value
      | some (.str s) => s == cond.value
      | none => false

/-- `handleValueChange` from `AgentPreview.tsx` lines 25-27: overwrite the
stored answer of a single-valued block. -/
def handleValueChange (prev : FormValues) (name : String) (value : JSValue) : FormValues :=
  setValue prev name value

/-- The spread `[...s]` of a JS string: its list of one-character strings. -/
def jsCharList (s : String) : List String :=
  s.data.map (fun c => String.mk [c])

/-- `prev[name] || []` coerced to an array as `handleCheckboxChange` uses it:
an absent key and the (falsy) empty string give `[]`; an array gives itself;
a non-empty string is truthy and spreads into its characters. -/
def jsOrEmptyList (v : Option JSValue) : List String :=
  match v with
  | none => []
  | some (.arr xs) => xs
  | some (.str s) => if s = "" then [] else jsCharList s

/-- `handleCheckboxChange` from `AgentPreview.tsx` lines 29-38:

```
const existing: string[] = prev[name] || [];
if (checked) return { ...prev, [name]: [...existing, option] };
else return { ...prev, [name]: existing.filter(item => item !== option) };
```

When unchecking while the stored value is a non-empty string, the JS code
would call `.filter` on a string and throw a TypeError; that case is
modelled as `none`. All other cases return the updated record. -/
def handleCheckboxChange (prev : FormValues) (name option : String) (checked : Bool) :
    Option FormValues :=
  if checked then
    some (setValue prev name (.arr (jsOrEmptyList (lookupValue prev name) ++ [option])))
  else
    match lookupValue prev name with
    | some (.str s) =>
        if s = "" then some (setValue prev name (.arr []))
        else none
    | some (.arr xs) =>
        some (setValue prev name (.arr (xs.filter (fun item => item != option))))
    | none => some (setValue prev name (.arr ([] : List String)))

/-- A script block as the interpreter consumes it: identifier, answer-record
name, type tag (an open string tag in the source), and the optional display
condition. Visual attributes are not used by the embedded logic. -/
structure ScriptBlock where
  id : String
  name : String
  type : String
  displayCondition : Option DisplayCondition
deriving DecidableEq, Repr

/-- A script page: identifier, display name, blocks. -/
structure Page where
  id : String
  name : String
  blocks : List ScriptBlock
deriving DecidableEq, Repr

/-- `SavedScript`: start-page identifier plus the ordered page list. -/
structure SavedScript where
  id : String
  name : String
  startPageId : String
  pages : List Page
deriving DecidableEq, Repr

/-- `ButtonAction` from `types.ts`: the four known action tags. `navigate`
carries an optional page id (the source guards it with a truthiness test). -/
inductive ButtonAction where
  | save
  | navigate (pageId : Option String)
  | next
  | previous
deriving DecidableEq, Repr

/-- `Array.prototype.findIndex`: the index of the first match, `-1` when
there is none. -/
def findIndexJS (p : Page → Bool) : List Page → Int
  | [] => -1
  | x :: xs =>
    if p x then 0
    else
      let r := findIndexJS p xs
      if r = -1 then -1 else r + 1

/-- `pages[i].id` for an integer index. The `next`/`previous` branches of
`handleButtonClick` only evaluate this under a guard that keeps the index in
bounds, so the `""` default is never reached from those call sites. -/
def jsPageIdAt (pages : List Page) (i : Int) : String :=
  match pages.get? i.toNat with
  | some p => p.id
  | none => ""

/-- The page-pointer part of `handleButtonClick` from `AgentPreview.tsx`
lines 40-65, as a function from the action and the current `currentPageId`
to the new `currentPageId`:

* `save` shows an alert and leaves the page unchanged;
* `navigate` sets the page to `action.pageId` whenever that id is truthy,
  with no existence check;
* `next` advances by one position when `findIndex < pages.length - 1`;
* `previous` goes back one position when `findIndex > 0`. -/
def handleButtonClick (action : ButtonAction) (script : SavedScript)
    (currentPageId : String) : String :=
  match action with
  | .save => currentPageId
  | .navigate pageId =>
    match pageId with
    | some pid => if pid = "" then currentPageId else pid
    | none => currentPageId
  | .next =>
    let currentIndex := findIndexJS (fun p => p.id == currentPageId) script.pages
    if currentIndex < (script.pages.length : Int) - 1 then
      jsPageIdAt script.pages (currentIndex + 1)
    else currentPageId
  | .previous =>
    let currentIndex := findIndexJS (fun p => p.id == currentPageId) script.pages
    if currentIndex > 0 then
      jsPageIdAt script.pages (currentIndex - 1)
    else currentPageId

/-- `script.pages.find(p => p.id === currentPageId)` (line 217). -/
def currentPage (script : SavedScript) (currentPageId : String) : Option Page :=
  script.pages.find? (fun p => p.id == currentPageId)

/-- The identifiers of a script's page set. -/
def pageIds (script : SavedScript) : List String :=
  script.pages.map (fun p => p.id)

/-- The blocks actually rendered (lines 252-259): the optional chaining
`currentPage?.blocks` renders nothing when no page matches, otherwise the
page's blocks filtered by `block.type !== 'group' && checkCondition (...)`. -/
def visibleBlocks (script : SavedScript) (currentPageId : String)
    (values : FormValues) : List ScriptBlock :=
  match currentPage script currentPageId with
  | none => []
  | some page =>
    page.blocks.filter (fun b => b.type != "group" && checkCondition b.displayCondition values)

/-- The page name shown in the header (line 225, `currentPage?.name`):
`none` renders as an empty caption. -/
def displayedPageName (script : SavedScript) (currentPageId : String) : Option String :=
  (currentPage script currentPageId).map (fun p => p.name)

/-- Folding a sequence of button actions over the page pointer. -/
def runActions (script : SavedScript) (pid : String) : List ButtonAction → String
  | [] => pid
  | a :: rest => runActions script (handleButtonClick a script pid) rest

/-- An action that cannot dangle: any action except a `navigate` whose
target is a non-empty id absent from the script's page set. -/
def goodNav (script : SavedScript) : ButtonAction → Bool
  | .navigate (some t) => t == "" || (pageIds script).contains t
  | _ => true

/-! ## Agent call-session state machine (`AgentView`, `src/unnamed/part_001`) -/

/-- `AgentCtiStatus` from line 7 of the `AgentView` source. -/
inductive AgentCtiStatus where
  | LOGGED_OUT
  | WAITING
  | IN_CALL
  | WRAP_UP
  | PAUSED
deriving DecidableEq, Repr

/-- A campaign contact as the call-session logic consumes it: identifier and
the `status` string scanned by `handleNextCall`. -/
structure Contact where
  id : Nat
  status : String
deriving DecidableEq, Repr

/-- A campaign: identifier, active flag, script id, ordered contact list. -/
structure Campaign where
  id : String
  isActive : Bool
  scriptId : String
  contacts : List Contact
deriving DecidableEq, Repr

/-- The agent (`User`) fields the call-session logic reads. -/
structure Agent where
  campaignIds : List String
deriving DecidableEq, Repr

/-- The mutable state of one mounted `AgentView` component:

* `mounted`: whether the component is still mounted; `onLogout` unmounts it
  (the App replaces it with the login screen), and React turns any
  `setState` from a later callback on the unmounted component into a no-op;
* `ctiStatus`, `statusTimer`, `currentContact`: the three `useState` cells;
* `pendingWrapUps`: the number of `setTimeout` callbacks scheduled by
  `handleEndCall` that have not fired yet (the source never cancels them). -/
structure ConsoleState where
  mounted : Bool
  ctiStatus : AgentCtiStatus
  statusTimer : Nat
  currentContact : Option Contact
  pendingWrapUps : Nat
deriving DecidableEq, Repr

/-- The initial `useState` values of a freshly mounted `AgentView`. -/
def initialConsoleState : ConsoleState :=
  { mounted := true
    ctiStatus := .LOGGED_OUT
    statusTimer := 0
    currentContact := none
    pendingWrapUps := 0 }

/-- `agentCampaign` (lines 29-31):
`campaigns.find(c => c.id === agent.campaignIds[0] && c.isActive)`.
`agent.campaignIds[0]` is `undefined` on an empty list, which the strict
equality turns into no match. -/
def agentCampaign (agent : Agent) (campaigns : List Campaign) : Option Campaign :=
  campaigns.find? (fun c => (agent.campaignIds.head? == some c.id) && c.isActive)

/-- The alert text of `handleNextCall` when no pending contact remains. -/
def noMoreContactsNotice : String :=
  "Plus de contacts a appeler dans cette campagne."

/-- `handleLoginClick` (lines 61-64). -/
def handleLoginClick (s : ConsoleState) : ConsoleState × Option String :=
  ({ s with ctiStatus := .WAITING, statusTimer := 0 }, none)

/-- `handleNextCall` (lines 66-77): bail out when no active campaign is
assigned; otherwise take the first contact with status `pending`, or alert
and stay `WAITING`. The second component is the alert emitted, if any. -/
def handleNextCall (camp : Option Campaign) (s : ConsoleState) :
    ConsoleState × Option String :=
  match camp with
  | none => (s, none)
  | some campaign =>
    match campaign.contacts.find? (fun c => c.status == "pending") with
    | some nextContact =>
      ({ s with currentContact := some nextContact, ctiStatus := .IN_CALL, statusTimer := 0 },
        none)
    | none =>
      ({ s with ctiStatus := .WAITING }, some noMoreContactsNotice)

/-- `handleEndCall` (lines 79-88): go to `WRAP_UP`, reset the timer, and
schedule a 10-second timeout (recorded in `pendingWrapUps`; the source keeps
no handle to it and never cancels it). -/
def handleEndCall (s : ConsoleState) : ConsoleState × Option String :=
  ({ s with ctiStatus := .WRAP_UP, statusTimer := 0, pendingWrapUps := s.pendingWrapUps + 1 },
    none)

/-- `handlePause` (lines 90-93). -/
def handlePause (s : ConsoleState) : ConsoleState × Option String :=
  ({ s with ctiStatus := .PAUSED, statusTimer := 0 }, none)

/-- `handleResume` (lines 95-98). -/
def handleResume (s : ConsoleState) : ConsoleState × Option String :=
  ({ s with ctiStatus := .WAITING, statusTimer := 0 }, none)

/-- The body of the `setTimeout` callback scheduled by `handleEndCall`.
On a mounted component it sets `WAITING`, clears the contact and resets the
timer; on an unmounted component every `setState` is a React no-op, so the
session state is untouched. -/
def wrapUpCallback (s : ConsoleState) : ConsoleState :=
  if s.mounted then
    { s with ctiStatus := .WAITING, currentContact := none, statusTimer := 0 }
  else s

/-- The discrete events that can reach a mounted `AgentView`: the five
buttons of the footer, the 1-second interval tick installed by the
`useEffect` on `ctiStatus`, the firing of a scheduled wrap-up timeout, and
the teardown of the component (the logout button / session end). -/
inductive ConsoleEvent where
  | login
  | nextCall
  | endCall
  | pause
  | resume
  | tick
  | wrapUpTimeout
  | teardown
deriving DecidableEq, Repr

/-- One step of the `AgentView` component. Button handlers only run when
their button is rendered (footer lines 157-173 gate each button on
`ctiStatus`) and the component is mounted; the interval tick only runs while
the `useEffect` keeps an interval alive (mounted and not `LOGGED_OUT`,
lines 39-52); a scheduled wrap-up timeout fires exactly once
(`pendingWrapUps` decreases) and changes state only on a mounted component;
teardown clears the interval (cleanup of the effect) and unmounts. The
second component is the alert emitted by the step, if any. -/
def step (agent : Agent) (campaigns : List Campaign) (s : ConsoleState)
    (e : ConsoleEvent) : ConsoleState × Option String :=
  match e with
  | .login =>
    if s.mounted && s.ctiStatus == .LOGGED_OUT then handleLoginClick s else (s, none)
  | .nextCall =>
    if s.mounted && s.ctiStatus == .WAITING then
      handleNextCall (agentCampaign agent campaigns) s
    else (s, none)
  | .endCall =>
    if s.mounted && s.ctiStatus == .IN_CALL then handleEndCall s else (s, none)
  | .pause =>
    if s.mounted && s.ctiStatus == .WAITING then handlePause s else (s, none)
  | .resume =>
    if s.mounted && s.ctiStatus == .PAUSED then handleResume s else (s, none)
  | .tick =>
    if s.mounted && s.ctiStatus != .LOGGED_OUT then
      ({ s with statusTimer := s.statusTimer + 1 }, none)
    else (s, none)
  | .wrapUpTimeout =>
    if s.pendingWrapUps > 0 then
      ({ wrapUpCallback s with pendingWrapUps := s.pendingWrapUps - 1 }, none)
    else (s, none)
  | .teardown => ({ s with mounted := false }, none)

/-- The same step together with the campaign collection it was given:
`AgentView` receives `campaigns` as a prop and never calls the App's
`setCampaigns`, so the collection (and every contact status in it) passes
through every event unchanged. -/
def fullStep (agent : Agent) (campaigns : List Campaign) (s : ConsoleState)
    (e : ConsoleEvent) : List Campaign × ConsoleState × Option String :=
  (campaigns, step agent campaigns s e)

/-- `n` interval ticks in a row. -/
def applyTicks (agent : Agent) (campaigns : List Campaign) :
    Nat → ConsoleState → ConsoleState
  | 0, s => s
  | n + 1, s => applyTicks agent campaigns n (step agent campaigns s .tick).1

/-- Folding a list of events over the console state. -/
def runEvents (agent : Agent) (campaigns : List Campaign) :
    ConsoleState → List ConsoleEvent → ConsoleState
  | s, [] => s
  | s, e :: es => runEvents agent campaigns (step agent campaigns s e).1 es

/-! ## Helper lemmas -/

theorem lookupValue_map_replace (n : String) (v : JSValue) (t : FormValues) :
    lookupValue (t.map (fun p => if p.1 == n then (n, v) else p)) n
      = if t.any (fun p => p.1 == n) then some v else none := by
  induction t with
  | nil => simp [lookupValue]
  | cons a t ih =>
    by_cases h : a.1 = n
    · simp [lookupValue, List.find?, h]
    · have hb : (a.1 == n) = false := beq_eq_false_iff_ne.mpr h
      simp only [List.map_cons, List.any_cons, hb, Bool.false_or]
      simpa [lookupValue, List.find?, hb] using ih

theorem lookupValue_append_single_of_not_any (n : String) (v : JSValue) (t : FormValues)
    (h : t.any (fun p => p.1 == n) = false) :
    lookupValue (t ++ [(n, v)]) n = some v := by
  induction t with
  | nil => simp [lookupValue, List.find?]
  | cons a t ih =>
    simp only [List.any_cons, Bool.or_eq_false_iff] at h
    simpa [lookupValue, List.find?, h.1] using ih h.2

theorem lookupValue_setValue_self (vs : FormValues) (n : String) (v : JSValue) :
    lookupValue (setValue vs n v) n = some v := by
  unfold setValue
  by_cases h : vs.any (fun p => p.1 == n) = true
  · rw [if_pos h, lookupValue_map_replace, if_pos h]
  · rw [if_neg h]
    exact lookupValue_append_single_of_not_any n v vs (by
      rwa [Bool.not_eq_true] at h)

theorem filter_ne_self_of_all_eq (a : String) (xs : List String)
    (h : ∀ x ∈ xs, x = a) : xs.filter (fun x => x != a) = [] := by
  induction xs with
  | nil => rfl
  | cons x t ih =>
    have hx : x = a := h x (List.mem_cons_self x t)
    have : (x != a) = false := by simp [hx]
    simp only [List.filter_cons, this]
    exact ih (fun y hy => h y (List.mem_cons_of_mem x hy))

theorem find?_append_first {α : Type} (p : α → Bool) (pre : List α) (c : α) (post : List α)
    (hpre : ∀ x ∈ pre, p x = false) (hc : p c = true) :
    (pre ++ c :: post).find? p = some c := by
  induction pre with
  | nil => simp [List.find?, hc]
  | cons x t ih =>
    have hx : p x = false := hpre x (List.mem_cons_self x t)
    simpa [List.find?, hx] using ih (fun y hy => hpre y (List.mem_cons_of_mem x hy))

theorem findIndexJS_ge_neg1 (p : Page → Bool) (xs : List Page) :
    -1 ≤ findIndexJS p xs := by
  induction xs with
  | nil => simp [findIndexJS]
  | cons x t ih =>
    simp only [findIndexJS]
    split
    · omega
    · split <;> omega

theorem findIndexJS_lt_length (p : Page → Bool) (xs : List Page) :
    findIndexJS p xs < (xs.length : Int) := by
  induction xs with
  | nil => simp [findIndexJS]
  | cons x t ih =>
    simp only [findIndexJS, List.length_cons]
    split
    · push_cast; omega
    · split
      · push_cast; omega
      · push_cast; push_cast at ih; omega

theorem findIndexJS_append (p : Page → Bool) (pre : List Page) (c : Page) (rest : List Page)
    (hpre : ∀ x ∈ pre, p x = false) (hc : p c = true) :
    findIndexJS p (pre ++ c :: rest) = (pre.length : Int) := by
  induction pre with
  | nil => simp [findIndexJS, hc]
  | cons x t ih =>
    have hx : p x = false := hpre x (List.mem_cons_self x t)
    have ht : findIndexJS p (t ++ c :: rest) = (t.length : Int) :=
      ih (fun y hy => hpre y (List.mem_cons_of_mem x hy))
    rw [List.cons_append]
    simp only [findIndexJS, hx, ht, List.length_cons]
    have hne : ¬((t.length : Int) = -1) := by omega
    simp only [if_neg hne, Bool.false_eq_true, if_false]
    push_cast
    ring

theorem get?_append_add {α : Type} (pre ys : List α) (k : Nat) :
    (pre ++ ys).get? (pre.length + k) = ys.get? k := by
  induction pre with
  | nil => simp
  | cons a t ih =>
    have hlen : (a :: t).length + k = (t.length + k) + 1 := by
      simp [List.length_cons]; omega
    rw [List.cons_append, hlen, List.get?_cons_succ]
    exact ih

theorem jsPageIdAt_mem (pages : List Page) (i : Int)
    (h0 : 0 ≤ i) (hlt : i < (pages.length : Int)) :
    jsPageIdAt pages i ∈ pages.map (fun p => p.id) := by
  have hn : i.toNat < pages.length := by omega
  rw [jsPageIdAt, List.get?_eq_get hn]
  exact List.mem_map_of_mem (fun p => p.id) (List.get_mem pages i.toNat hn)

theorem handleButtonClick_mem (script : SavedScript) (a : ButtonAction) (pid : String)
    (hpid : pid ∈ pageIds script) (hgood : goodNav script a = true) :
    handleButtonClick a script pid ∈ pageIds script := by
  cases a with
  | save => exact hpid
  | navigate pageId =>
    cases pageId with
    | none => exact hpid
    | some t =>
      simp only [handleButtonClick]
      by_cases ht : t = ""
      · simpa [ht] using hpid
      · rw [if_neg ht]
        simp only [goodNav, Bool.or_eq_true, beq_iff_eq] at hgood
        rcases hgood with h | h
        · exact absurd h ht
        · simpa [pageIds, List.contains_iff_exists_mem_beq, beq_iff_eq] using h
  | next =>
    simp only [handleButtonClick]
    split
    · rename_i hguard
      refine jsPageIdAt_mem _ _ ?_ ?_
      · have := findIndexJS_ge_neg1 (fun p => p.id == pid) script.pages
        omega
      · omega
    · exact hpid
  | previous =>
    simp only [handleButtonClick]
    split
    · rename_i hguard
      refine jsPageIdAt_mem _ _ ?_ ?_
      · omega
      · have := findIndexJS_lt_length (fun p => p.id == pid) script.pages
        omega
    · exact hpid

theorem runActions_mem (script : SavedScript) (actions : List ButtonAction) (pid : String)
    (hpid : pid ∈ pageIds script)
    (hgood : ∀ a ∈ actions, goodNav script a = true) :
    runActions script pid actions ∈ pageIds script := by
  induction actions generalizing pid with
  | nil => exact hpid
  | cons a rest ih =>
    exact ih _
      (handleButtonClick_mem script a pid hpid (hgood a (List.mem_cons_self a rest)))
      (fun x hx => hgood x (List.mem_cons_of_mem a hx))

theorem currentPage_eq_none_of_not_mem (script : SavedScript) (target : String)
    (habsent : target ∉ pageIds script) :
    currentPage script target = none := by
  rw [currentPage, List.find?_eq_none]
  intro pg hpg hbeq
  exact habsent (by
    simp only [pageIds, List.mem_map]
    exact ⟨pg, hpg, by simpa [beq_iff_eq] using hbeq⟩)

/-! ## Claims about the script interpreter -/

/-- C3 (counterexample): the code treats a condition whose `blockName` is the
empty string as vacuously true (`!condition.blockName` is a JS truthiness
test), whereas the claim makes only a null/absent `blockName` vacuous and
would look the empty string up in the answer record, where it is absent, and
return false. -/
theorem checkCondition_empty_blockName_cex :
    checkCondition (some ⟨some "", "yes"⟩) [] = true ∧
    checkConditionClaimed (some ⟨some "", "yes"⟩) [] = false :=
  ⟨rfl, rfl⟩

/-- C3 (amended): `checkCondition` returns true when the condition is null,
or its `blockName` is null/absent, or its `blockName` is the empty string;
otherwise, if the stored answer for `blockName` is an array it returns true
iff the condition's value is a member, if it is a string it returns true iff
it strictly equals the condition's value, and an absent key makes the
condition false. -/
theorem checkCondition_characterization (cond : DisplayCondition) (values : FormValues) :
    (checkCondition none values = true) ∧
    (cond.blockName = none → checkCondition (some cond) values = true) ∧
    (cond.blockName = some "" → checkCondition (some cond) values = true) ∧
    (∀ name, cond.blockName = some name → name ≠ "" →
      ((lookupValue values name = none → checkCondition (some cond) values = false) ∧
       (∀ xs, lookupValue values name = some (.arr xs) →
          (checkCondition (some cond) values = true ↔ cond.value ∈ xs)) ∧
       (∀ s, lookupValue values name = some (.str s) →
          (checkCondition (some cond) values = true ↔ s = cond.value)))) := by
  refine ⟨rfl, ?_, ?_, ?_⟩
  · intro h
    simp [checkCondition, h]
  · intro h
    simp [checkCondition, h]
  · intro name hname hne
    refine ⟨?_, ?_, ?_⟩
    · intro hnone
      simp [checkCondition, hname, hne, hnone]
    · intro xs hxs
      simp [checkCondition, hname, hne, hxs, List.contains_iff_exists_mem_beq, beq_iff_eq]
    · intro s hs
      simp [checkCondition, hname, hne, hs, beq_iff_eq]

/-- C3 (witness for the amended theorem): a condition with no `blockName` is
vacuously true. -/
theorem checkCondition_characterization_witness :
    checkCondition (some ⟨none, "v"⟩) [] = true :=
  (checkCondition_characterization ⟨none, "v"⟩ []).2.1 rfl

/-- C4 (counterexample): the claim quantifies over every starting state, but
from a state whose stored answer for the block is already `["B"]`, checking
"A", then "B", then unchecking "A" yields `["B", "B"]`, not `["B"]` (checking
appends unconditionally, and only "A" occurrences are removed). -/
theorem checkbox_toggle_cex :
    (((handleCheckboxChange [("opts", .arr ["B"])] "opts" "A" true).bind
        (fun v => handleCheckboxChange v "opts" "B" true)).bind
        (fun v => handleCheckboxChange v "opts" "A" false))
      = some [("opts", .arr ["B", "B"])] ∧
    some (JSValue.arr ["B", "B"]) ≠ some (JSValue.arr ["B"]) := by
  constructor
  · rfl
  · decide

/-- C4 (amended): recording answers for a multi-choice block is a toggle on
the stored list: checking an option appends it and unchecking removes all
its occurrences; for any starting state whose stored answer for the block is
absent or is a list all of whose elements are "A" (in particular the fresh,
absent state), checking "A" then "B" then unchecking "A" yields the stored
answer `["B"]`; and single-valued blocks are overwritten. -/
theorem checkbox_toggle_amended (prev : FormValues) (name a b : String)
    (hab : a ≠ b)
    (hstart : lookupValue prev name = none ∨
      ∃ xs, lookupValue prev name = some (.arr xs) ∧ ∀ x ∈ xs, x = a) :
    (∃ v1 v2 v3,
      handleCheckboxChange prev name a true = some v1 ∧
      handleCheckboxChange v1 name b true = some v2 ∧
      handleCheckboxChange v2 name a false = some v3 ∧
      lookupValue v3 name = some (.arr [b])) ∧
    (∀ xs opt, lookupValue prev name = some (.arr xs) →
      (∃ v, handleCheckboxChange prev name opt true = some v ∧
        lookupValue v name = some (.arr (xs ++ [opt]))) ∧
      (∃ v, handleCheckboxChange prev name opt false = some v ∧
        lookupValue v name = some (.arr (xs.filter (fun x => x != opt))))) ∧
    (∀ v, lookupValue (handleValueChange prev name v) name = some v) := by
  have hba : (b != a) = true := by
    simp [bne_iff_ne]
    exact fun h => hab h.symm
  refine ⟨?_, ?_, ?_⟩
  · -- the toggle chain
    obtain ⟨xs0, hxs0, hall⟩ :
        ∃ xs0, jsOrEmptyList (lookupValue prev name) = xs0 ∧ ∀ x ∈ xs0, x = a := by
      rcases hstart with h | ⟨xs, hxs, hall⟩
      · exact ⟨[], by rw [h]; rfl, by intro x hx; cases hx⟩
      · exact ⟨xs, by rw [hxs]; rfl, hall⟩
    refine ⟨setValue prev name (.arr (xs0 ++ [a])),
      setValue (setValue prev name (.arr (xs0 ++ [a]))) name (.arr ((xs0 ++ [a]) ++ [b])),
      setValue (setValue (setValue prev name (.arr (xs0 ++ [a]))) name
          (.arr ((xs0 ++ [a]) ++ [b]))) name
        (.arr (((xs0 ++ [a]) ++ [b]).filter (fun item => item != a))),
      ?_, ?_, ?_, ?_⟩
    · simp [handleCheckboxChange, hxs0]
    · simp [handleCheckboxChange, lookupValue_setValue_self, jsOrEmptyList]
    · simp [handleCheckboxChange, lookupValue_setValue_self]
    · rw [lookupValue_setValue_self]
      congr 2
      rw [List.filter_append, List.filter_append,
        filter_ne_self_of_all_eq a xs0 hall]
      simp [List.filter, hba]
  · intro xs opt hxs
    constructor
    · refine ⟨setValue prev name (.arr (xs ++ [opt])), ?_, ?_⟩
      · simp [handleCheckboxChange, hxs, jsOrEmptyList]
      · exact lookupValue_setValue_self _ _ _
    · refine ⟨setValue prev name (.arr (xs.filter (fun x => x != opt))), ?_, ?_⟩
      · simp [handleCheckboxChange, hxs]
      · exact lookupValue_setValue_self _ _ _
  · intro v
    exact lookupValue_setValue_self _ _ _

/-- C4 (witness for the amended theorem): from the fresh state, checking "A"
then "B" then unchecking "A" stores `["B"]`. -/
theorem checkbox_toggle_amended_witness :
    ∃ v1 v2 v3,
      handleCheckboxChange [] "opts" "A" true = some v1 ∧
      handleCheckboxChange v1 "opts" "B" true = some v2 ∧
      handleCheckboxChange v2 "opts" "A" false = some v3 ∧
      lookupValue v3 "opts" = some (.arr ["B"]) :=
  (checkbox_toggle_amended [] "opts" "A" "B" (by decide) (Or.inl rfl)).1

/-- C5: for a script whose current page occurs in its page sequence (at its
first occurrence, decomposed as `pre ++ cur :: rest` with no earlier page
carrying the same id), `next` is a no-op on the last page and otherwise
advances to the immediately following page; `previous` is a no-op on the
first page and otherwise moves to the immediately preceding page. -/
theorem page_nav_clamps (script : SavedScript) (pid : String)
    (pre rest : List Page) (cur : Page)
    (hpages : script.pages = pre ++ cur :: rest)
    (hid : cur.id = pid)
    (hfresh : ∀ x ∈ pre, x.id ≠ pid) :
    (rest = [] → handleButtonClick .next script pid = pid) ∧
    (∀ nxt rest2, rest = nxt :: rest2 → handleButtonClick .next script pid = nxt.id) ∧
    (pre = [] → handleButtonClick .previous script pid = pid) ∧
    (∀ pre2 pv, pre = pre2 ++ [pv] → handleButtonClick .previous script pid = pv.id) := by
  have hidx : findIndexJS (fun p => p.id == pid) script.pages = (pre.length : Int) := by
    rw [hpages]
    exact findIndexJS_append _ pre cur rest
      (fun x hx => beq_eq_false_iff_ne.mpr (hfresh x hx))
      (beq_iff_eq.mpr hid)
  refine ⟨?_, ?_, ?_, ?_⟩
  · intro hrest
    subst hrest
    have hlen : (script.pages.length : Int) = pre.length + 1 := by
      rw [hpages]; push_cast [List.length_append, List.length_cons, List.length_nil]; ring
    simp only [handleButtonClick, hidx, hlen]
    rw [if_neg (by omega)]
  · intro nxt rest2 hrest
    subst hrest
    have hlen : (script.pages.length : Int) = pre.length + 2 + rest2.length := by
      rw [hpages]; push_cast [List.length_append, List.length_cons]; ring
    simp only [handleButtonClick, hidx, hlen]
    rw [if_pos (by omega)]
    have htn : ((pre.length : Int) + 1).toNat = pre.length + 1 := by omega
    rw [jsPageIdAt, htn, hpages]
    have : pre.length + 1 = pre.length + 1 := rfl
    rw [get?_append_add pre (cur :: nxt :: rest2) 1]
    rfl
  · intro hpre
    subst hpre
    simp only [handleButtonClick, hidx]
    simp
  · intro pre2 pv hpre
    subst hpre
    have hl : ((pre2 ++ [pv]).length : Int) = pre2.length + 1 := by
      push_cast [List.length_append, List.length_cons, List.length_nil]; ring
    simp only [handleButtonClick, hidx, hl]
    rw [if_pos (by omega)]
    have htn : ((pre2.length : Int) + 1 - 1).toNat = pre2.length + 0 := by omega
    rw [jsPageIdAt, htn, hpages, List.append_assoc]
    rw [get?_append_add pre2 ([pv] ++ cur :: rest) 0]
    rfl

/-- C5 (witness): on the middle page of a three-page script, `next` goes to
page 3 and `previous` to page 1. -/
theorem page_nav_clamps_witness :
    handleButtonClick .next
        ⟨"s1", "Script", "p1",
          [⟨"p1", "One", []⟩, ⟨"p2", "Two", []⟩, ⟨"p3", "Three", []⟩]⟩ "p2" = "p3" ∧
    handleButtonClick .previous
        ⟨"s1", "Script", "p1",
          [⟨"p1", "One", []⟩, ⟨"p2", "Two", []⟩, ⟨"p3", "Three", []⟩]⟩ "p2" = "p1" :=
  ⟨(page_nav_clamps _ "p2" [⟨"p1", "One", []⟩] [⟨"p3", "Three", []⟩] ⟨"p2", "Two", []⟩
      rfl rfl (by decide)).2.1 ⟨"p3", "Three", []⟩ [] rfl,
   (page_nav_clamps _ "p2" [⟨"p1", "One", []⟩] [⟨"p3", "Three", []⟩] ⟨"p2", "Two", []⟩
      rfl rfl (by decide)).2.2.2 [] ⟨"p1", "One", []⟩ rfl⟩

/-- C6 (counterexample): a `navigate` action whose target is absent from the
page set moves `currentPageId` to the dangling identifier, so the invariant
that `currentPageId` always references an existing page fails after a
`navigate` dispatch. -/
theorem page_invariant_cex :
    runActions ⟨"s1", "Script", "p1", [⟨"p1", "One", []⟩]⟩ "p1"
        [.navigate (some "ghost")] = "ghost" ∧
    "ghost" ∉ pageIds ⟨"s1", "Script", "p1", [⟨"p1", "One", []⟩]⟩ := by
  exact ⟨rfl, by decide⟩

/-- C6 (amended): provided the start page exists in the script's page set,
the invariant that `currentPageId` references an existing page is preserved
by every sequence of `next`, `previous` and `save` dispatches and of
`navigate` dispatches whose target is empty or exists in the page set; an
unguarded `navigate` to an absent identifier is the one way to break it. -/
theorem page_invariant_amended (script : SavedScript) (actions : List ButtonAction)
    (hstart : script.startPageId ∈ pageIds script)
    (hgood : ∀ a ∈ actions, goodNav script a = true) :
    runActions script script.startPageId actions ∈ pageIds script :=
  runActions_mem script actions script.startPageId hstart hgood

/-- C6 (witness): a sequence of `next`, existing-target `navigate`,
`previous` and `save` keeps the page pointer inside the page set. -/
theorem page_invariant_amended_witness :
    runActions ⟨"s1", "Script", "p1", [⟨"p1", "One", []⟩, ⟨"p2", "Two", []⟩]⟩ "p1"
        [.next, .navigate (some "p1"), .previous, .save]
      ∈ pageIds ⟨"s1", "Script", "p1", [⟨"p1", "One", []⟩, ⟨"p2", "Two", []⟩]⟩ :=
  page_invariant_amended
    ⟨"s1", "Script", "p1", [⟨"p1", "One", []⟩, ⟨"p2", "Two", []⟩]⟩
    [.next, .navigate (some "p1"), .previous, .save]
    (by decide) (by decide)

/-- C7 (counterexample): after `navigate` to the absent identifier "ghost",
the interpreter's entire observable output carries no error marker: the page
pointer is set to "ghost", the current-page lookup is empty, the header
caption is empty, and the rendered block list is empty — even though the
real page "p1" renders a block. The dangling navigation is absorbed silently
as a blank page, not surfaced as a distinguishable error state. -/
theorem dangling_navigate_cex :
    handleButtonClick (.navigate (some "ghost"))
        ⟨"s1", "Script", "p1", [⟨"p1", "One", [⟨"b1", "q1", "label", none⟩]⟩]⟩ "p1"
      = "ghost" ∧
    currentPage ⟨"s1", "Script", "p1", [⟨"p1", "One", [⟨"b1", "q1", "label", none⟩]⟩]⟩
        "ghost" = none ∧
    displayedPageName ⟨"s1", "Script", "p1", [⟨"p1", "One", [⟨"b1", "q1", "label", none⟩]⟩]⟩
        "ghost" = none ∧
    visibleBlocks ⟨"s1", "Script", "p1", [⟨"p1", "One", [⟨"b1", "q1", "label", none⟩]⟩]⟩
        "ghost" [] = [] ∧
    visibleBlocks ⟨"s1", "Script", "p1", [⟨"p1", "One", [⟨"b1", "q1", "label", none⟩]⟩]⟩
        "p1" [] = [⟨"b1", "q1", "label", none⟩] :=
  ⟨rfl, rfl, rfl, rfl, rfl⟩

/-- C7 (amended): when `navigate` targets a page identifier absent from the
script's page set, the interpreter does not crash: it sets the page pointer
to the dangling identifier unconditionally, after which the current-page
lookup yields no page and the view silently renders a blank page (no page
caption, no blocks); no distinguishable error state is surfaced to the
caller. -/
theorem dangling_navigate_amended (script : SavedScript) (pid target : String)
    (values : FormValues) (ht : target ≠ "")
    (habsent : target ∉ pageIds script) :
    handleButtonClick (.navigate (some target)) script pid = target ∧
    currentPage script target = none ∧
    displayedPageName script target = none ∧
    visibleBlocks script target values = [] := by
  have hcp := currentPage_eq_none_of_not_mem script target habsent
  refine ⟨?_, hcp, ?_, ?_⟩
  · simp [handleButtonClick, ht]
  · rw [displayedPageName, hcp]
    rfl
  · rw [visibleBlocks, hcp]

/-- C7 (witness for the amended theorem): navigating to "zz" from "p1" in a
one-page script lands on the dangling pointer with a blank rendering. -/
theorem dangling_navigate_amended_witness :
    handleButtonClick (.navigate (some "zz"))
        ⟨"s1", "Script", "p1", [⟨"p1", "One", []⟩]⟩ "p1" = "zz" ∧
    currentPage ⟨"s1", "Script", "p1", [⟨"p1", "One", []⟩]⟩ "zz" = none ∧
    displayedPageName ⟨"s1", "Script", "p1", [⟨"p1", "One", []⟩]⟩ "zz" = none ∧
    visibleBlocks ⟨"s1", "Script", "p1", [⟨"p1", "One", []⟩]⟩ "zz" [] = [] :=
  dangling_navigate_amended ⟨"s1", "Script", "p1", [⟨"p1", "One", []⟩]⟩ "p1" "zz" []
    (by decide) (by decide)

/-! ## Helper lemmas about the call-session state machine -/

theorem step_tick_fields (agent : Agent) (campaigns : List Campaign) (s : ConsoleState) :
    (step agent campaigns s .tick).1.mounted = s.mounted ∧
    (step agent campaigns s .tick).1.ctiStatus = s.ctiStatus ∧
    (step agent campaigns s .tick).1.currentContact = s.currentContact ∧
    (step agent campaigns s .tick).1.pendingWrapUps = s.pendingWrapUps := by
  simp only [step]
  split <;> exact ⟨rfl, rfl, rfl, rfl⟩

theorem applyTicks_fields (agent : Agent) (campaigns : List Campaign) (n : Nat)
    (s : ConsoleState) :
    (applyTicks agent campaigns n s).mounted = s.mounted ∧
    (applyTicks agent campaigns n s).ctiStatus = s.ctiStatus ∧
    (applyTicks agent campaigns n s).currentContact = s.currentContact ∧
    (applyTicks agent campaigns n s).pendingWrapUps = s.pendingWrapUps := by
  induction n generalizing s with
  | zero => exact ⟨rfl, rfl, rfl, rfl⟩
  | succ n ih =>
    obtain ⟨h1, h2, h3, h4⟩ := step_tick_fields agent campaigns s
    obtain ⟨g1, g2, g3, g4⟩ := ih (step agent campaigns s .tick).1
    exact ⟨g1.trans h1, g2.trans h2, g3.trans h3, g4.trans h4⟩

theorem step_preserves_loggedOut_timer_zero (agent : Agent) (campaigns : List Campaign)
    (s : ConsoleState) (e : ConsoleEvent)
    (h : s.ctiStatus = .LOGGED_OUT → s.statusTimer = 0) :
    (step agent campaigns s e).1.ctiStatus = .LOGGED_OUT →
    (step agent campaigns s e).1.statusTimer = 0 := by
  cases e with
  | login =>
    simp only [step]
    split
    · intro hlo; cases hlo
    · exact h
  | nextCall =>
    simp only [step]
    split
    · rcases hc : agentCampaign agent campaigns with _ | campaign
      · simp only [handleNextCall, hc]
        exact h
      · rcases hf : campaign.contacts.find? (fun c => c.status == "pending") with _ | c
        · simp only [handleNextCall, hc, hf]
          intro hlo; cases hlo
        · simp only [handleNextCall, hc, hf]
          intro hlo; cases hlo
    · exact h
  | endCall =>
    simp only [step]
    split
    · intro hlo; cases hlo
    · exact h
  | pause =>
    simp only [step]
    split
    · intro hlo; cases hlo
    · exact h
  | resume =>
    simp only [step]
    split
    · intro hlo; cases hlo
    · exact h
  | tick =>
    simp only [step]
    split
    · rename_i hcond
      intro hlo
      rw [Bool.and_eq_true, bne_iff_ne] at hcond
      exact absurd hlo hcond.2
    · exact h
  | wrapUpTimeout =>
    simp only [step]
    split
    · simp only [wrapUpCallback]
      split
      · intro hlo; cases hlo
      · exact h
    · exact h
  | teardown => exact h

theorem runEvents_loggedOut_timer_zero (agent : Agent) (campaigns : List Campaign)
    (es : List ConsoleEvent) :
    ∀ s : ConsoleState, (s.ctiStatus = .LOGGED_OUT → s.statusTimer = 0) →
      ((runEvents agent campaigns s es).ctiStatus = .LOGGED_OUT →
       (runEvents agent campaigns s es).statusTimer = 0) := by
  induction es with
  | nil => exact fun s h => h
  | cons e rest ih =>
    intro s h
    exact ih (step agent campaigns s e).1
      (step_preserves_loggedOut_timer_zero agent campaigns s e h)

/-! ## Claims about the call-session state machine -/

/-- C2: with an active assigned campaign, `request-next-call` in the
`Waiting` state scans the contact sequence in order: the first contact with
status `pending` (the decomposition `pre ++ c :: post` with no pending
contact in `pre`) becomes the current contact and the status becomes
`InCall` with the timer reset; when no contact is pending, an alert is
emitted and the session stays in `Waiting` with no current contact. -/
theorem next_call_selects_first_pending (agent : Agent) (campaigns : List Campaign)
    (camp : Campaign) (s : ConsoleState)
    (hm : s.mounted = true) (hw : s.ctiStatus = .WAITING) (hcc : s.currentContact = none)
    (hcamp : agentCampaign agent campaigns = some camp) :
    (∀ pre c post, camp.contacts = pre ++ c :: post →
      (∀ x ∈ pre, x.status ≠ "pending") → c.status = "pending" →
      (step agent campaigns s .nextCall).1.currentContact = some c ∧
      (step agent campaigns s .nextCall).1.ctiStatus = .IN_CALL ∧
      (step agent campaigns s .nextCall).1.statusTimer = 0) ∧
    ((∀ x ∈ camp.contacts, x.status ≠ "pending") →
      (step agent campaigns s .nextCall).1.ctiStatus = .WAITING ∧
      (step agent campaigns s .nextCall).1.currentContact = none ∧
      (step agent campaigns s .nextCall).2 = some noMoreContactsNotice) := by
  have hcond : (s.mounted && s.ctiStatus == AgentCtiStatus.WAITING) = true := by
    rw [hm, hw]; rfl
  constructor
  · intro pre c post hsplit hpre hc
    have hfind : camp.contacts.find? (fun x => x.status == "pending") = some c := by
      rw [hsplit]
      exact find?_append_first _ pre c post
        (fun x hx => beq_eq_false_iff_ne.mpr (hpre x hx))
        (beq_iff_eq.mpr hc)
    simp [step, hcond, handleNextCall, hcamp, hfind]
  · intro hall
    have hfind : camp.contacts.find? (fun x => x.status == "pending") = none := by
      rw [List.find?_eq_none]
      intro x hx hbeq
      exact hall x hx (by simpa [beq_iff_eq] using hbeq)
    simp [step, hcond, handleNextCall, hcamp, hfind, hcc]

/-- C2 (witness): with contacts done/pending/pending the selected contact is
the one with id 2, and the session enters `IN_CALL`. -/
theorem next_call_selects_first_pending_witness :
    (step ⟨["c1"]⟩ [⟨"c1", true, "s1", [⟨1, "done"⟩, ⟨2, "pending"⟩, ⟨3, "pending"⟩]⟩]
        ⟨true, .WAITING, 4, none, 0⟩ .nextCall).1.currentContact = some ⟨2, "pending"⟩ ∧
    (step ⟨["c1"]⟩ [⟨"c1", true, "s1", [⟨1, "done"⟩, ⟨2, "pending"⟩, ⟨3, "pending"⟩]⟩]
        ⟨true, .WAITING, 4, none, 0⟩ .nextCall).1.ctiStatus = .IN_CALL := by
  have h := (next_call_selects_first_pending ⟨["c1"]⟩
    [⟨"c1", true, "s1", [⟨1, "done"⟩, ⟨2, "pending"⟩, ⟨3, "pending"⟩]⟩]
    ⟨"c1", true, "s1", [⟨1, "done"⟩, ⟨2, "pending"⟩, ⟨3, "pending"⟩]⟩
    ⟨true, .WAITING, 4, none, 0⟩ rfl rfl rfl rfl).1
    [⟨1, "done"⟩] ⟨2, "pending"⟩ [⟨3, "pending"⟩] rfl (by decide) rfl
  exact ⟨h.1, h.2.1⟩

/-- C8 (counterexample): with no active assigned campaign (the agent's
campaign exists but `isActive` is false), `request-next-call` returns the
state unchanged and emits nothing: no distinguishable `NoAssignedCampaign`
outcome is signalled, in contrast with the exhausted-campaign case, which
does notify the caller on the same channel. -/
theorem no_campaign_silent_cex :
    step ⟨["c1"]⟩ [⟨"c1", false, "s1", [⟨1, "pending"⟩]⟩]
        ⟨true, .WAITING, 5, none, 0⟩ .nextCall
      = (⟨true, .WAITING, 5, none, 0⟩, none) ∧
    (step ⟨["c1"]⟩ [⟨"c1", true, "s1", [⟨1, "done"⟩]⟩]
        ⟨true, .WAITING, 5, none, 0⟩ .nextCall).2 = some noMoreContactsNotice :=
  ⟨rfl, rfl⟩

/-- C8 (amended): when the agent has no active assigned campaign,
`request-next-call` is a silent no-op: the session state is left unchanged
and no outcome is signalled to the caller (the handler returns before
emitting anything; the missing campaign is only a standing display in the
info panel, not a per-call signal). -/
theorem no_campaign_noop_amended (agent : Agent) (campaigns : List Campaign)
    (s : ConsoleState)
    (hm : s.mounted = true) (hw : s.ctiStatus = .WAITING)
    (hnone : agentCampaign agent campaigns = none) :
    step agent campaigns s .nextCall = (s, none) := by
  have hcond : (s.mounted && s.ctiStatus == AgentCtiStatus.WAITING) = true := by
    rw [hm, hw]; rfl
  simp [step, hcond, handleNextCall, hnone]

/-- C8 (witness for the amended theorem). -/
theorem no_campaign_noop_amended_witness :
    step ⟨["c9"]⟩ [⟨"c1", true, "s1", [⟨1, "pending"⟩]⟩]
        ⟨true, .WAITING, 3, none, 0⟩ .nextCall
      = (⟨true, .WAITING, 3, none, 0⟩, none) :=
  no_campaign_noop_amended ⟨["c9"]⟩ [⟨"c1", true, "s1", [⟨1, "pending"⟩]⟩]
    ⟨true, .WAITING, 3, none, 0⟩ rfl rfl (by decide)

/-- C1: a session that enters `WRAP_UP` via `end-call` (timer reset on
entry), left alone for any number of interval ticks, transitions to
`WAITING` with the contact cleared and the timer reset when the scheduled
wrap-up timeout fires; and when the component is torn down (logout) before
the timeout fires, the late callback changes nothing on the torn-down
session: status, contact and timer are untouched and the session stays
unmounted (React turns the callback's `setState` calls into no-ops). -/
theorem wrapup_auto_transition (agent : Agent) (campaigns : List Campaign)
    (s : ConsoleState) (n : Nat)
    (hm : s.mounted = true) (hst : s.ctiStatus = .IN_CALL) :
    ∀ s1 sw fired torn late,
      s1 = (step agent campaigns s .endCall).1 →
      sw = applyTicks agent campaigns n s1 →
      fired = (step agent campaigns sw .wrapUpTimeout).1 →
      torn = (step agent campaigns sw .teardown).1 →
      late = (step agent campaigns torn .wrapUpTimeout).1 →
      (s1.ctiStatus = .WRAP_UP ∧ s1.statusTimer = 0) ∧
      (fired.ctiStatus = .WAITING ∧ fired.currentContact = none ∧
        fired.statusTimer = 0) ∧
      (late.ctiStatus = torn.ctiStatus ∧ late.currentContact = torn.currentContact ∧
        late.statusTimer = torn.statusTimer ∧ late.mounted = false) := by
  intro s1 sw fired torn late h1 h2 h3 h4 h5
  have hcond : (s.mounted && s.ctiStatus == AgentCtiStatus.IN_CALL) = true := by
    rw [hm, hst]; rfl
  have hs1 : s1 = { s with ctiStatus := .WRAP_UP, statusTimer := 0, pendingWrapUps := s.pendingWrapUps + 1 } := by
    rw [h1]; simp [step, hcond, handleEndCall]
  obtain ⟨hswm, hsws, hswc, hswp⟩ := applyTicks_fields agent campaigns n s1
  rw [← h2] at hswm hsws hswc hswp
  rw [hs1] at hswm hsws hswp
  have hswm' : sw.mounted = true := hswm.trans hm
  have hsws' : sw.ctiStatus = .WRAP_UP := hsws
  have hswp' : sw.pendingWrapUps = s.pendingWrapUps + 1 := hswp
  have hpos : sw.pendingWrapUps > 0 := by omega
  refine ⟨⟨by rw [hs1], by rw [hs1]⟩, ?_, ?_⟩
  · rw [h3]
    simp [step, hpos, wrapUpCallback, hswm']
  · have htorn : torn = { sw with mounted := false } := by rw [h4]; rfl
    have htm : torn.mounted = false := by rw [htorn]
    have htp : torn.pendingWrapUps > 0 := by rw [htorn]; exact hpos
    rw [h5]
    simp [step, htp, wrapUpCallback, htm]

/-- C1 (witness): from a concrete in-call session, end-call followed by ten
ticks and the timeout lands in `WAITING` with no contact and timer 0; if the
session is torn down first, the late timeout changes nothing. -/
theorem wrapup_auto_transition_witness :
    ((⟨true, .WRAP_UP, 0, some ⟨2, "pending"⟩, 1⟩ : ConsoleState).ctiStatus = .WRAP_UP ∧
      (⟨true, .WRAP_UP, 0, some ⟨2, "pending"⟩, 1⟩ : ConsoleState).statusTimer = 0) ∧
    ((⟨true, .WAITING, 0, none, 0⟩ : ConsoleState).ctiStatus = .WAITING ∧
      (⟨true, .WAITING, 0, none, 0⟩ : ConsoleState).currentContact = none ∧
      (⟨true, .WAITING, 0, none, 0⟩ : ConsoleState).statusTimer = 0) ∧
    ((⟨false, .WRAP_UP, 10, some ⟨2, "pending"⟩, 0⟩ : ConsoleState).ctiStatus
        = (⟨false, .WRAP_UP, 10, some ⟨2, "pending"⟩, 1⟩ : ConsoleState).ctiStatus ∧
      (⟨false, .WRAP_UP, 10, some ⟨2, "pending"⟩, 0⟩ : ConsoleState).currentContact
        = (⟨false, .WRAP_UP, 10, some ⟨2, "pending"⟩, 1⟩ : ConsoleState).currentContact ∧
      (⟨false, .WRAP_UP, 10, some ⟨2, "pending"⟩, 0⟩ : ConsoleState).statusTimer
        = (⟨false, .WRAP_UP, 10, some ⟨2, "pending"⟩, 1⟩ : ConsoleState).statusTimer ∧
      (⟨false, .WRAP_UP, 10, some ⟨2, "pending"⟩, 0⟩ : ConsoleState).mounted = false) :=
  wrapup_auto_transition ⟨["c1"]⟩ [] ⟨true, .IN_CALL, 7, some ⟨2, "pending"⟩, 0⟩ 10
    rfl rfl
    ⟨true, .WRAP_UP, 0, some ⟨2, "pending"⟩, 1⟩
    ⟨true, .WRAP_UP, 10, some ⟨2, "pending"⟩, 1⟩
    ⟨true, .WAITING, 0, none, 0⟩
    ⟨false, .WRAP_UP, 10, some ⟨2, "pending"⟩, 1⟩
    ⟨false, .WRAP_UP, 10, some ⟨2, "pending"⟩, 0⟩
    rfl rfl rfl rfl rfl

/-- C9: the elapsed counter (1) is 0 after every step that changes the
status, (2) increases by exactly 1 per tick while the session is mounted and
the status is not `LOGGED_OUT`, (3) is untouched by a tick — the interval is
stopped — when the session is unmounted (after logout/session end) or the
status is `LOGGED_OUT`, and (4) reads 0 in every reachable `LOGGED_OUT`
state of a session started from the initial state. -/
theorem timer_reset_and_tick_spec (agent : Agent) (campaigns : List Campaign) :
    (∀ s e, (step agent campaigns s e).1.ctiStatus ≠ s.ctiStatus →
      (step agent campaigns s e).1.statusTimer = 0) ∧
    (∀ s : ConsoleState, s.mounted = true → s.ctiStatus ≠ .LOGGED_OUT →
      (step agent campaigns s .tick).1.statusTimer = s.statusTimer + 1) ∧
    (∀ s : ConsoleState, s.mounted = false ∨ s.ctiStatus = .LOGGED_OUT →
      (step agent campaigns s .tick).1 = s) ∧
    (∀ es : List ConsoleEvent,
      (runEvents agent campaigns initialConsoleState es).ctiStatus = .LOGGED_OUT →
      (runEvents agent campaigns initialConsoleState es).statusTimer = 0) := by
  refine ⟨?_, ?_, ?_, ?_⟩
  · intro s e hne
    cases e with
    | login =>
      revert hne
      simp only [step]
      split
      · intro _; rfl
      · intro hne; exact absurd rfl hne
    | nextCall =>
      revert hne
      simp only [step]
      split
      · rename_i hcond
        rw [Bool.and_eq_true, beq_iff_eq] at hcond
        rcases hc : agentCampaign agent campaigns with _ | campaign
        · simp only [handleNextCall, hc]
          intro hne; exact absurd rfl hne
        · rcases hf : campaign.contacts.find? (fun c => c.status == "pending") with _ | c
          · simp only [handleNextCall, hc, hf]
            intro hne
            exact absurd hcond.2.symm (by simpa using hne)
          · simp only [handleNextCall, hc, hf]
            intro _; trivial
      · intro hne; exact absurd rfl hne
    | endCall =>
      revert hne
      simp only [step]
      split
      · intro _; rfl
      · intro hne; exact absurd rfl hne
    | pause =>
      revert hne
      simp only [step]
      split
      · intro _; rfl
      · intro hne; exact absurd rfl hne
    | resume =>
      revert hne
      simp only [step]
      split
      · intro _; rfl
      · intro hne; exact absurd rfl hne
    | tick =>
      revert hne
      simp only [step]
      split
      · intro hne; exact absurd rfl hne
      · intro hne; exact absurd rfl hne
    | wrapUpTimeout =>
      revert hne
      simp only [step]
      split
      · simp only [wrapUpCallback]
        split
        · intro _; rfl
        · intro hne; exact absurd rfl hne
      · intro hne; exact absurd rfl hne
    | teardown => exact absurd rfl hne
  · intro s hmounted hstatus
    have hcond : (s.mounted && s.ctiStatus != AgentCtiStatus.LOGGED_OUT) = true := by
      rw [hmounted, Bool.true_and, bne_iff_ne]
      exact hstatus
    simp [step, hcond]
  · intro s h
    have hcond : (s.mounted && s.ctiStatus != AgentCtiStatus.LOGGED_OUT) = false := by
      rcases h with h | h
      · rw [h, Bool.false_and]
      · rw [Bool.and_eq_false_iff]
        right
        simp [h]
    simp [step, hcond]
  · intro es
    exact runEvents_loggedOut_timer_zero agent campaigns es initialConsoleState
      (fun _ => rfl)

/-- C9 (witness): a tick in a mounted `WAITING` state advances the timer
from 4 to 5; a tick in the logged-out initial state is a no-op; a
status-changing login step resets the timer to 0; and the empty event trace
from the initial state reads 0. -/
theorem timer_reset_and_tick_spec_witness :
    (step ⟨["c1"]⟩ [] ⟨true, .WAITING, 4, none, 0⟩ .tick).1.statusTimer = 4 + 1 ∧
    (step ⟨["c1"]⟩ [] initialConsoleState .tick).1 = initialConsoleState ∧
    (step ⟨["c1"]⟩ [] ⟨true, .LOGGED_OUT, 0, none, 0⟩ .login).1.statusTimer = 0 ∧
    (runEvents ⟨["c1"]⟩ [] initialConsoleState []).statusTimer = 0 := by
  refine ⟨?_, ?_, ?_, ?_⟩
  · exact (timer_reset_and_tick_spec ⟨["c1"]⟩ []).2.1 ⟨true, .WAITING, 4, none, 0⟩
      rfl (by decide)
  · exact (timer_reset_and_tick_spec ⟨["c1"]⟩ []).2.2.1 initialConsoleState
      (Or.inr rfl)
  · exact (timer_reset_and_tick_spec ⟨["c1"]⟩ []).1 ⟨true, .LOGGED_OUT, 0, none, 0⟩
      .login (by decide)
  · exact (timer_reset_and_tick_spec ⟨["c1"]⟩ []).2.2.2 [] rfl

/-- C10: no call-session event changes the campaign collection — the contact
sequence and every contact status pass through `fullStep` untouched, so the
selected contact is never marked non-pending — and consequently, after
end-call and the wrap-up timeout's return to `Waiting`, a subsequent
`request-next-call` selects the same contact again. -/
theorem frame_contacts_preserved (agent : Agent) (campaigns : List Campaign)
    (s : ConsoleState) :
    (∀ e, (fullStep agent campaigns s e).1 = campaigns) ∧
    (∀ camp c, s.mounted = true → s.ctiStatus = .IN_CALL →
      s.currentContact = some c →
      agentCampaign agent campaigns = some camp →
      camp.contacts.find? (fun x => x.status == "pending") = some c →
      ((step agent campaigns
          (step agent campaigns (step agent campaigns s .endCall).1 .wrapUpTimeout).1
          .nextCall).1.currentContact = s.currentContact ∧
       (step agent campaigns
          (step agent campaigns (step agent campaigns s .endCall).1 .wrapUpTimeout).1
          .nextCall).1.ctiStatus = .IN_CALL)) := by
  constructor
  · intro e
    rfl
  · intro camp c hm hst hcc hcamp hfind
    have hcond : (s.mounted && s.ctiStatus == AgentCtiStatus.IN_CALL) = true := by
      rw [hm, hst]; rfl
    have h1 : (step agent campaigns s .endCall).1 = { s with ctiStatus := .WRAP_UP, statusTimer := 0, pendingWrapUps := s.pendingWrapUps + 1 } := by
      simp [step, hcond, handleEndCall]
    have h2 : (step agent campaigns (step agent campaigns s .endCall).1 .wrapUpTimeout).1 = { s with ctiStatus := .WAITING, statusTimer := 0, currentContact := none, pendingWrapUps := s.pendingWrapUps } := by
      rw [h1]
      simp [step, wrapUpCallback, hm]
    rw [h2]
    have hcond2 : ((true : Bool) && AgentCtiStatus.WAITING == AgentCtiStatus.WAITING)
        = true := rfl
    simp [step, handleNextCall, hcamp, hfind, hcc, hm]

/-- C10 (witness): a concrete in-call session on the done/pending campaign
re-selects contact 2 after end-call and the wrap-up timeout. -/
theorem frame_contacts_preserved_witness :
    (fullStep ⟨["c1"]⟩ [⟨"c1", true, "s1", [⟨1, "done"⟩, ⟨2, "pending"⟩]⟩]
        ⟨true, .IN_CALL, 6, some ⟨2, "pending"⟩, 0⟩ .endCall).1
      = [⟨"c1", true, "s1", [⟨1, "done"⟩, ⟨2, "pending"⟩]⟩] ∧
    (step ⟨["c1"]⟩ [⟨"c1", true, "s1", [⟨1, "done"⟩, ⟨2, "pending"⟩]⟩]
        (step ⟨["c1"]⟩ [⟨"c1", true, "s1", [⟨1, "done"⟩, ⟨2, "pending"⟩]⟩]
          (step ⟨["c1"]⟩ [⟨"c1", true, "s1", [⟨1, "done"⟩, ⟨2, "pending"⟩]⟩]
            ⟨true, .IN_CALL, 6, some ⟨2, "pending"⟩, 0⟩ .endCall).1 .wrapUpTimeout).1
        .nextCall).1.currentContact
      = (⟨true, .IN_CALL, 6, some ⟨2, "pending"⟩, 0⟩ : ConsoleState).currentContact := by
  have h := frame_contacts_preserved ⟨["c1"]⟩
    [⟨"c1", true, "s1", [⟨1, "done"⟩, ⟨2, "pending"⟩]⟩]
    ⟨true, .IN_CALL, 6, some ⟨2, "pending"⟩, 0⟩
  exact ⟨h.1 .endCall,
    (h.2 ⟨"c1", true, "s1", [⟨1, "done"⟩, ⟨2, "pending"⟩]⟩ ⟨2, "pending"⟩
      rfl rfl rfl rfl rfl).1⟩

end CrmCallPro
